import Mathlib

/-!
Verification of the terminal "digital rain" program (src/src/main.rs).

The embedding models the Rust source directly:
* machine integers are `Nat`/`Int` with explicit two's-complement wrapping
  (`wrap16`, `toI16`, `toU16`, `u16sub`) where the source casts or where
  release-mode arithmetic would wrap;
* every random draw of the source (`gen_range`, `gen_bool`, `Direction::random`)
  is passed in as an explicit parameter or oracle, so each theorem quantifies
  over all outcomes of the draws;
* the early-return loop of `random_color` is modelled with `Option`, and the
  straight-line shutdown part of `main` as an explicit event trace.
-/

namespace Rain

/-- The 8-way compass enumeration `Direction` from the source. -/
inductive Direction where
  | left | right | up | down | upLeft | upRight | downLeft | downRight
deriving DecidableEq, BEq, Repr

/-- List of all eight directions (the range of `Direction::random`). -/
def allDirections : List Direction :=
  [.left, .right, .up, .down, .upLeft, .upRight, .downLeft, .downRight]

/-- `Direction::get_offset`: the fixed unit-offset pair of each direction. -/
def Direction.getOffset : Direction → Int × Int
  | .left => (-1, 0)
  | .right => (1, 0)
  | .up => (0, -1)
  | .down => (0, 1)
  | .upLeft => (-1, -1)
  | .upRight => (1, -1)
  | .downLeft => (-1, 1)
  | .downRight => (1, 1)

/-- Two's-complement wrap of an integer into the `i16` range `[-32768, 32767]`. -/
def wrap16 (z : Int) : Int := (z + 32768) % 65536 - 32768

/-- The Rust cast `u16 as i16` (the `u16` value is held as a `Nat`). -/
def toI16 (n : Nat) : Int := wrap16 n

/-- The Rust cast `i16 as u16`: reinterpret modulo `2^16`. -/
def toU16 (z : Int) : Nat := (z % 65536).toNat

/-- Wrapping `u16` subtraction (release-mode semantics of `a - b` on `u16`). -/
def u16sub (a b : Nat) : Nat := toU16 ((a : Int) - (b : Int))

/-- A `Stream`: position `(x, y)` stored as `u16` values, plus a direction. -/
structure Stream where
  x : Nat
  y : Nat
  direction : Direction
deriving DecidableEq, BEq, Repr

/-- `Stream::new(max_x, max_y)`: the draws `gen_range(0..max_x)`,
`gen_range(0..max_y)` and `Direction::random()` are passed in explicitly. -/
def Stream.new (xDraw yDraw : Nat) (d : Direction) : Stream :=
  ⟨xDraw, yDraw, d⟩

/-- `Stream::update(max_x, _max_y)`, with the outcome of `rng.gen_bool(0.1)`
(`bern`) and of `Direction::random()` (`nd`) passed in explicitly.  All casts
and arithmetic follow the source with two's-complement wrapping on `i16`
(`self.x as i16 + dx`, `max_x as i16 - 2`, `max_x as i16 - 1`) and on the
`u16` clamp expression `max_x - 2`. -/
def Stream.update (maxX : Nat) (s : Stream) (bern : Bool) (nd : Direction) : Stream :=
  let dx := s.direction.getOffset.1
  let dy := s.direction.getOffset.2
  let newX := wrap16 (toI16 s.x + dx)
  let newY := wrap16 (toI16 s.y + dy)
  if newX ≤ 0 ∨ newX ≥ wrap16 (toI16 maxX - 2) ∨ newY ≤ 0 ∨ bern = true then
    let x1 := if newX ≤ 0 then 1 else s.x
    let x2 := if newX ≥ wrap16 (toI16 maxX - 1) then u16sub maxX 2 else x1
    let y1 := if newY ≤ 0 then 1 else s.y
    ⟨x2, y1, nd⟩
  else
    ⟨toU16 newX, toU16 newY, s.direction⟩

/-- The §4.3 transition rule, written from the spec's words with exact
(unbounded) integer arithmetic: candidate = position + offset; on a boundary
hit or a successful Bernoulli(0.1) trial, re-randomise the direction and clamp
`x` to `1` when candidate `x ≤ 0`, to `max_x - 2` when candidate
`x ≥ max_x - 1`, and `y` to `1` when candidate `y ≤ 0`; otherwise commit the
candidate.  This is the spec-side definition used for refinement claims. -/
def Stream.updateSpecRule (maxX : Nat) (s : Stream) (bern : Bool) (nd : Direction) : Stream :=
  let dx := s.direction.getOffset.1
  let dy := s.direction.getOffset.2
  let cx := (s.x : Int) + dx
  let cy := (s.y : Int) + dy
  if cx ≤ 0 ∨ cx ≥ (maxX : Int) - 2 ∨ cy ≤ 0 ∨ bern = true then
    let x1 := if cx ≤ 0 then 1 else s.x
    let x2 := if cx ≥ (maxX : Int) - 1 then maxX - 2 else x1
    let y1 := if cy ≤ 0 then 1 else s.y
    ⟨x2, y1, nd⟩
  else
    ⟨cx.toNat, cy.toNat, s.direction⟩

/-! ## Colors and weighted selection -/

/-- The subset of `crossterm::style::Color` values the program uses. -/
inductive Color where
  | ansiValue (n : Nat)
  | white
  | reset
deriving DecidableEq, BEq, Repr

/-- The `Weight` enum: a color tagged `Primary` or `Accent` with a weight. -/
inductive Weight where
  | primary (c : Color) (w : Nat)
  | accent (c : Color) (w : Nat)
deriving DecidableEq, BEq, Repr

/-- The weight component of a `Weight` entry. -/
def Weight.weightOf : Weight → Nat
  | .primary _ w => w
  | .accent _ w => w

/-- The color component of a `Weight` entry. -/
def Weight.colorOf : Weight → Color
  | .primary c _ => c
  | .accent c _ => c

/-- The fixed `COLORS` catalog: 7 `Accent` entries of weight 10 and one
`Primary` entry of weight 30, in source order. -/
def COLORS : List Weight :=
  [ .accent (.ansiValue 0) 10,
    .accent (.ansiValue 18) 10,
    .accent (.ansiValue 29) 10,
    .accent (.ansiValue 39) 10,
    .accent (.ansiValue 128) 10,
    .accent (.ansiValue 199) 10,
    .accent (.ansiValue 206) 10,
    .primary (.ansiValue 255) 30 ]

/-- `total_weight`: the sum of the declared weights (`u8` sum; it is 100, so
the `u8` addition never wraps and the `Nat` sum is exact). -/
def totalWeight : Nat := (COLORS.map Weight.weightOf).sum

/-- The selection loop of `random_color`: walk the catalog, return the entry
once the remaining draw is below its weight, else subtract and continue.
`none` models falling off the end of the loop (reaching `Color::White`). -/
def pickColor : List Weight → Nat → Option Color
  | [], _ => none
  | w :: rest, c =>
    if c < w.weightOf then some w.colorOf else pickColor rest (c - w.weightOf)

/-- `random_color()`, with the draw `rng.gen_range(0..total_weight)` passed in
explicitly; the trailing `Color::White` is the fall-through default. -/
def randomColor (choice : Nat) : Color := (pickColor COLORS choice).getD .white

/-- Spec-side definition for C5: the first catalog entry whose cumulative
weight exceeds the draw (cumulative-weight selection as the spec words it). -/
def cumSelectAux : List Weight → Nat → Nat → Option Color
  | [], _, _ => none
  | w :: rest, acc, d =>
    if d < acc + w.weightOf then some w.colorOf else cumSelectAux rest (acc + w.weightOf) d

/-- Spec-side cumulative-weight selection over the `COLORS` catalog. -/
def cumSelect (d : Nat) : Option Color := cumSelectAux COLORS 0 d

/-! ## Glyphs and `random_string` -/

/-- Build a string from a list of Unicode scalar values. -/
def mkStr (l : List Nat) : String := String.mk (l.map Char.ofNat)

/-- The fixed 15-entry `CHAR_SET` catalog, each entry given by the exact
Unicode scalar values of the string literals in the source file. -/
def CHAR_SET : List String :=
  [ mkStr [65, 204, 181, 204, 166, 204, 166, 204, 8220, 205, 338, 205, 8212, 205, 8250, 204, 8226],
    mkStr [65],
    mkStr [226, 8218, 179],
    mkStr [226, 8211, 8216, 65, 226, 8211, 8216],
    mkStr [65, 210, 8240],
    mkStr [200, 186],
    mkStr [65, 204, 183],
    mkStr [65, 204, 178],
    mkStr [65, 204, 179],
    mkStr [65, 204, 190],
    mkStr [65, 205, 381],
    mkStr [65, 205, 8220, 204, 189],
    mkStr [240, 8221, 184],
    mkStr [225, 180, 8364],
    mkStr [226, 710, 8364] ]

/-- Concatenation of a list of strings (the `collect::<String>()` of the
source). -/
def concatAll : List String → String
  | [] => ""
  | s :: rest => s ++ concatAll rest

/-- `random_string()`: the length draw `gen_range(1..=16)` and the per-fragment
index draws `gen_range(0..CHAR_SET.len())` are passed in explicitly
(`pick i` is the draw for fragment `i`). -/
def randomString (len : Nat) (pick : Nat → Nat) : String :=
  concatAll ((List.range len).map fun i => CHAR_SET.getD (pick i) "")

/-! ## The printer tick -/

/-- The per-stream random draws consumed during one printer tick: the
`gen_bool(0.1)` and `Direction::random()` draws of `Stream::update`, the
`random_color` draw, and the `random_string` draws. -/
structure TickRand where
  bern : Bool
  nd : Direction
  colorDraw : Nat
  strLen : Nat
  strPick : Nat → Nat

/-- One queued draw command: `MoveTo(x, y)`, `SetForegroundColor(color)`,
`Print(text)`. -/
structure DrawCmd where
  x : Nat
  y : Nat
  color : Color
  text : String
deriving DecidableEq, Repr

/-- The stream collection after the spawn-and-update phase of one non-paused
tick: `sz` is the result of `terminal::size()` (`none` = query failed, in
which case the whole `if let Ok` block is skipped); on success, push a new
stream when the `gen_bool(CHAOS)` draw (`chaos`) succeeded, then update every
stream with its oracle draws. -/
def streamsMid (sz : Option (Nat × Nat)) (chaos : Bool) (newS : Stream)
    (orc : Nat → TickRand) (streams : List Stream) : List Stream :=
  match sz with
  | none => streams
  | some (mx, _my) =>
    let pushed := if chaos then streams ++ [newS] else streams
    pushed.mapIdx fun i s => s.update mx (orc i).bern (orc i).nd

/-- The population-cap step: `if streams.len() > 20 { streams.remove(0) }`. -/
def capStep (l : List Stream) : List Stream :=
  if l.length > 20 then l.tail else l

/-- One iteration of the printer loop body: when `paused`, only sleep (no
mutation, no drawing); otherwise run the rendering block guarded by the
`size()` result, then the cap check (which runs whether or not `size()`
succeeded), returning the new collection and the queued draw commands. -/
def tick (paused : Bool) (sz : Option (Nat × Nat)) (chaos : Bool) (newS : Stream)
    (orc : Nat → TickRand) (streams : List Stream) : List Stream × List DrawCmd :=
  if paused then (streams, [])
  else
    let mid := streamsMid sz chaos newS orc streams
    let cmds :=
      match sz with
      | none => []
      | some _ =>
        mid.mapIdx fun i s =>
          ⟨s.x, s.y, randomColor (orc i).colorDraw,
            randomString (orc i).strLen (orc i).strPick⟩
    (capStep mid, cmds)

/-! ## The shutdown sequence of `main` -/

/-- The terminal-affecting steps `main` performs after the input loop exits
(the quit path), in program order. -/
inductive TermCmd where
  | showCursor
  | disableRaw
  | joinPrinter
  | resetColor
  | clearAll
  | moveHome
deriving DecidableEq, BEq, Repr

/-- The shutdown sequence of `main` in source order:
`execute!(stdout(), Show)`, `disable_raw_mode()`, `printer_thread.join()`,
then `execute!(stdout(), SetForegroundColor(Reset), Clear(All), MoveTo(0,0))`. -/
def shutdownSeq : List TermCmd :=
  [.showCursor, .disableRaw, .joinPrinter, .resetColor, .clearAll, .moveHome]

/-! ## Arithmetic helper lemmas -/

theorem offset_bounds (d : Direction) :
    -1 ≤ d.getOffset.1 ∧ d.getOffset.1 ≤ 1 ∧ -1 ≤ d.getOffset.2 ∧ d.getOffset.2 ≤ 1 := by
  cases d <;> exact ⟨by decide, by decide, by decide, by decide⟩

theorem wrap16_bounds (z : Int) : -32768 ≤ wrap16 z ∧ wrap16 z ≤ 32767 := by
  unfold wrap16
  omega

/-- The subtracted right-boundary comparand `max_x as i16 - 2` agrees with the
exact value `max_x - 2` for all `2 ≤ max_x ≤ 32768` (at `32768` the cast and
the subtraction wrap in opposite directions and cancel). -/
theorem wrap_sub_two {m : Nat} (h2 : 2 ≤ m) (hm : m ≤ 32768) :
    wrap16 (toI16 m - 2) = (m : Int) - 2 := by
  unfold toI16 wrap16
  omega

/-- Likewise for the clamp comparand `max_x as i16 - 1`. -/
theorem wrap_sub_one {m : Nat} (h1 : 1 ≤ m) (hm : m ≤ 32768) :
    wrap16 (toI16 m - 1) = (m : Int) - 1 := by
  unfold toI16 wrap16
  omega

/-- The `u16` clamp value `max_x - 2` is exact for `2 ≤ max_x`. -/
theorem u16sub_two_eq {m : Nat} (h2 : 2 ≤ m) (hm : m ≤ 65537) :
    u16sub m 2 = m - 2 := by
  unfold u16sub toU16
  omega

/-- Agreement of the machine-arithmetic `Stream::update` with the exact §4.3
rule on the wrap-free range (which extends to `max_x = 32768`, where the two
wraps cancel). -/
theorem update_agrees_spec (maxX x y : Nat) (d : Direction) (bern : Bool) (nd : Direction)
    (h2 : 2 ≤ maxX) (hm : maxX ≤ 32768) (hx : x ≤ 32766) (hy : y ≤ 32766) :
    Stream.update maxX ⟨x, y, d⟩ bern nd = Stream.updateSpecRule maxX ⟨x, y, d⟩ bern nd := by
  obtain ⟨o1, o2, o3, o4⟩ := offset_bounds d
  have ex : wrap16 (toI16 x + d.getOffset.1) = (x : Int) + d.getOffset.1 := by
    unfold toI16 wrap16
    omega
  have ey : wrap16 (toI16 y + d.getOffset.2) = (y : Int) + d.getOffset.2 := by
    unfold toI16 wrap16
    omega
  have e2 := wrap_sub_two h2 hm
  have e1 := wrap_sub_one (by omega) hm
  have es := u16sub_two_eq h2 (by omega)
  simp only [Stream.update, Stream.updateSpecRule, ex, ey, e2, e1, es]
  split_ifs <;> try rfl
  rename_i h
  push_neg at h
  obtain ⟨hx1, hx2, hy1, -⟩ := h
  have tx : toU16 ((x : Int) + d.getOffset.1) = ((x : Int) + d.getOffset.1).toNat := by
    unfold toU16
    omega
  have ty : toU16 ((y : Int) + d.getOffset.2) = ((y : Int) + d.getOffset.2).toNat := by
    unfold toU16
    omega
  rw [tx, ty]

/-- C9: `Stream::update` preserves the in-range states: for `3 ≤ max_x ≤ 32767`,
a state with `1 ≤ x ≤ max_x - 2` and `y ≥ 1` still satisfies those bounds after
the update, for every outcome of the random draws. -/
theorem C9_update_preserves_invariant (maxX x y : Nat) (d : Direction) (bern : Bool)
    (nd : Direction) (h3 : 3 ≤ maxX) (hm : maxX ≤ 32767)
    (hx1 : 1 ≤ x) (hx2 : x ≤ maxX - 2) (hy : 1 ≤ y) :
    1 ≤ (Stream.update maxX ⟨x, y, d⟩ bern nd).x ∧
      (Stream.update maxX ⟨x, y, d⟩ bern nd).x ≤ maxX - 2 ∧
      1 ≤ (Stream.update maxX ⟨x, y, d⟩ bern nd).y := by
  obtain ⟨o1, o2, o3, o4⟩ := offset_bounds d
  have ex : wrap16 (toI16 x + d.getOffset.1) = (x : Int) + d.getOffset.1 := by
    unfold toI16 wrap16
    omega
  have e2 : wrap16 (toI16 maxX - 2) = (maxX : Int) - 2 := wrap_sub_two (by omega) (by omega)
  have e1 : wrap16 (toI16 maxX - 1) = (maxX : Int) - 1 := wrap_sub_one (by omega) (by omega)
  have es : u16sub maxX 2 = maxX - 2 := u16sub_two_eq (by omega) (by omega)
  have hwb := wrap16_bounds (toI16 y + d.getOffset.2)
  simp only [Stream.update, ex, e2, e1, es]
  split_ifs <;> try (refine ⟨?_, ?_, ?_⟩ <;> dsimp only <;> omega)
  rename_i h
  push_neg at h
  obtain ⟨ha, hb, hc, -⟩ := h
  refine ⟨?_, ?_, ?_⟩ <;> dsimp only <;> simp only [toU16] <;> omega

/-! ## String and list helper lemmas -/

theorem string_data_append (s t : String) : (s ++ t).data = s.data ++ t.data := rfl

theorem concatAll_data (l : List String) :
    (concatAll l).data = (l.map String.data).flatten := by
  induction l with
  | nil => rfl
  | cons s rest ih => simp [concatAll, string_data_append, ih]

theorem char_set_entries_nonempty : ∀ s ∈ CHAR_SET, s.data ≠ [] := by decide

/-- A fixed oracle of per-stream draws, used to instantiate tick theorems. -/
def sampleOrc : Nat → TickRand := fun _ => ⟨false, .up, 0, 1, fun _ => 0⟩

theorem streamsMid_some_length (mx my : Nat) (chaos : Bool) (newS : Stream)
    (orc : Nat → TickRand) (streams : List Stream) :
    (streamsMid (some (mx, my)) chaos newS orc streams).length
      = streams.length + (if chaos then 1 else 0) := by
  cases chaos <;> simp [streamsMid, List.length_mapIdx]

theorem capStep_length (l : List Stream) (h : l.length ≤ 21) :
    (capStep l).length ≤ 20 := by
  unfold capStep
  split
  · rw [List.length_tail]
    omega
  · omega

/-! ## Claim theorems -/

/-- C1 (code bug): a `Stream::new(80, 24)` state with `x = 79` (a draw the
constructor can produce, since `79 < 80`) keeps `x = 79` after an update that
moves left: the candidate `x = 78` triggers the boundary branch
(`78 ≥ 80 - 2`) but not the clamp (`78 < 80 - 1`), so `x` stays `79 > 78`,
violating the claimed invariant `1 ≤ x ≤ max_x - 2` — which the program's own
`test_stream_bounds` test asserts. -/
theorem C1_stream_new_escapes_bounds :
    Stream.new 79 5 .left = ⟨79, 5, .left⟩ ∧ 79 < 80 ∧ 5 < 24 ∧
    ((allDirections.all fun nd =>
        ((Stream.update 80 (Stream.new 79 5 .left) false nd).x == 79) &&
        ((Stream.update 80 (Stream.new 79 5 .left) true nd).x == 79)) = true) ∧
    ¬(79 : Nat) ≤ 80 - 2 := by decide

/-- C2 counterexample: at `max_x = 40000` the cast `max_x as i16` wraps, so
`Stream::update` deviates from the §4.3 rule (the code clamps `x` to `39998`
and re-randomises the direction where the rule commits the candidate `(6, 5)`
unchanged). -/
theorem C2_update_deviates_from_rule :
    Stream.update 40000 ⟨5, 5, .right⟩ false .left
      ≠ Stream.updateSpecRule 40000 ⟨5, 5, .right⟩ false .left := by decide

/-- C2 (amended): for `2 ≤ max_x ≤ 32767` and positions with `x, y ≤ 32766`
(where all the i16 casts and arithmetic are exact), `Stream::update` follows
exactly the §4.3 transition rule, for every outcome of the random draws. -/
theorem C2_update_follows_rule_in_range (maxX : Nat) (s : Stream) (bern : Bool)
    (nd : Direction) (h2 : 2 ≤ maxX) (hm : maxX ≤ 32767)
    (hx : s.x ≤ 32766) (hy : s.y ≤ 32766) :
    Stream.update maxX s bern nd = Stream.updateSpecRule maxX s bern nd := by
  obtain ⟨x, y, d⟩ := s
  exact update_agrees_spec maxX x y d bern nd h2 (by omega) hx hy

theorem C2_update_follows_rule_in_range_witness :
    Stream.update 80 ⟨5, 5, .down⟩ true .upLeft
      = Stream.updateSpecRule 80 ⟨5, 5, .down⟩ true .upLeft :=
  C2_update_follows_rule_in_range 80 ⟨5, 5, .down⟩ true .upLeft
    (by decide) (by decide) (by decide) (by decide)

/-- C3 counterexample: on a paused tick the cap check does not run — a
collection of 21 streams (> 20) passes through a paused tick unchanged, so the
check is not "performed on every tick regardless of … paused". -/
theorem C3_paused_tick_skips_cap_check :
    (tick true none false ⟨1, 1, .up⟩ sampleOrc (List.replicate 21 ⟨1, 1, .up⟩)).1
      = List.replicate 21 ⟨1, 1, .up⟩ ∧
    (List.replicate 21 (⟨1, 1, .up⟩ : Stream)).length = 21 := ⟨rfl, by decide⟩

/-- C3 (amended): starting a tick with at most 20 streams, the collection holds
at most 20 at the end of the tick; a paused tick leaves the collection
untouched (so the bound holds although the cap check is skipped); on a
non-paused tick the cap check runs regardless of whether rendering occurred,
and when the population exceeds 20 exactly the oldest (index 0) entry is
removed. -/
theorem C3_population_cap (paused : Bool) (sz : Option (Nat × Nat)) (chaos : Bool)
    (newS : Stream) (orc : Nat → TickRand) (streams : List Stream)
    (h : streams.length ≤ 20) :
    (tick paused sz chaos newS orc streams).1.length ≤ 20 ∧
    (paused = true → (tick paused sz chaos newS orc streams).1 = streams) ∧
    (paused = false →
      (streamsMid sz chaos newS orc streams).length > 20 →
      (tick paused sz chaos newS orc streams).1
        = (streamsMid sz chaos newS orc streams).tail) := by
  have hmid : (streamsMid sz chaos newS orc streams).length ≤ streams.length + 1 := by
    cases sz with
    | none => simp [streamsMid]
    | some p =>
      obtain ⟨mx, my⟩ := p
      rw [streamsMid_some_length]
      split <;> omega
  refine ⟨?_, ?_, ?_⟩
  · cases paused with
    | true => simpa [tick] using h
    | false =>
      simp only [tick, Bool.false_eq_true, if_false]
      exact capStep_length _ (by omega)
  · intro hp
    subst hp
    rfl
  · intro hp hlen
    subst hp
    simp only [tick, Bool.false_eq_true, if_false, capStep, if_pos hlen]

theorem C3_population_cap_witness :
    (tick false none false ⟨1, 1, .up⟩ sampleOrc []).1.length ≤ 20 ∧
    (false = true → (tick false none false ⟨1, 1, .up⟩ sampleOrc []).1 = []) ∧
    (false = false →
      (streamsMid none false ⟨1, 1, .up⟩ sampleOrc []).length > 20 →
      (tick false none false ⟨1, 1, .up⟩ sampleOrc []).1
        = (streamsMid none false ⟨1, 1, .up⟩ sampleOrc []).tail) :=
  C3_population_cap false none false ⟨1, 1, .up⟩ sampleOrc [] (by decide)

/-- C4 (code bug): in the shutdown sequence of `main`, both terminal-restoring
commands — showing the cursor and leaving raw mode — are issued strictly
before the printer thread is joined (only the color-reset/clear/home batch
comes after), contradicting the claim that the join completes before any
restoration command. -/
theorem C4_restore_precedes_join :
    shutdownSeq.indexOf TermCmd.showCursor < shutdownSeq.indexOf TermCmd.joinPrinter ∧
    shutdownSeq.indexOf TermCmd.disableRaw < shutdownSeq.indexOf TermCmd.joinPrinter ∧
    shutdownSeq.indexOf TermCmd.joinPrinter < shutdownSeq.indexOf TermCmd.resetColor := by
  decide

/-- C5: the weights sum to 100; for every draw in `[0, 100)` the selection
loop returns the first catalog entry whose cumulative weight exceeds the draw;
and over the 100 possible draws each entry is selected exactly its weight's
number of times (each Accent 10, the Primary 30). -/
theorem C5_weighted_color_selection :
    totalWeight = 100 ∧
    (∀ d, d < 100 →
      randomColor d = (cumSelect d).getD Color.white ∧ (cumSelect d).isSome = true) ∧
    ((COLORS.all fun w =>
      ((List.range 100).countP fun d => randomColor d == w.colorOf) == w.weightOf) = true) :=
  ⟨by decide, by decide, by decide⟩

theorem C5_weighted_color_selection_witness :
    randomColor 42 = (cumSelect 42).getD Color.white :=
  (C5_weighted_color_selection.2.1 42 (by decide)).1

/-- C6: for every draw in `[0, total_weight)` the selection loop returns some
catalog entry, so the trailing `Color::White` default is unreachable. -/
theorem C6_no_fallthrough :
    ((List.range totalWeight).all fun d => (pickColor COLORS d).isSome) = true := by
  decide

/-- C7: a paused tick leaves the stream collection untouched and emits no draw
command; on a non-paused tick with a successful size query, one draw command is
emitted at the position of every (updated) stream, and a stream is spawned
exactly when the chaos draw succeeded. -/
theorem C7_paused_tick_noop (sz : Option (Nat × Nat)) (chaos : Bool) (newS : Stream)
    (orc : Nat → TickRand) (streams : List Stream) :
    tick true sz chaos newS orc streams = (streams, []) ∧
    ∀ mx my,
      ((tick false (some (mx, my)) chaos newS orc streams).2.map fun c => (c.x, c.y))
        = ((streamsMid (some (mx, my)) chaos newS orc streams).map fun s => (s.x, s.y)) ∧
      (streamsMid (some (mx, my)) chaos newS orc streams).length
        = streams.length + (if chaos then 1 else 0) := by
  refine ⟨rfl, fun mx my => ⟨?_, streamsMid_some_length mx my chaos newS orc streams⟩⟩
  simp only [tick, Bool.false_eq_true, if_false]
  conv_rhs =>
    rw [← List.enum_map_snd (streamsMid (some (mx, my)) chaos newS orc streams),
      List.map_map]
  rw [List.mapIdx_eq_enum_map, List.map_map]
  rfl

/-- C8: `random_string` with a length draw in `[1, 16]` and in-range index
draws returns a non-empty string that is the concatenation of between 1 and 16
catalog entries, and every character of the result occurs in some catalog
entry. -/
theorem C8_random_string_props (len : Nat) (pick : Nat → Nat)
    (h1 : 1 ≤ len) (h2 : len ≤ 16) (hp : ∀ i, pick i < CHAR_SET.length) :
    randomString len pick ≠ "" ∧
    (∃ frags : List String, 1 ≤ frags.length ∧ frags.length ≤ 16 ∧
      (∀ f ∈ frags, f ∈ CHAR_SET) ∧ randomString len pick = concatAll frags) ∧
    (∀ c ∈ (randomString len pick).data, ∃ s ∈ CHAR_SET, c ∈ s.data) := by
  have hmem : ∀ f ∈ (List.range len).map (fun i => CHAR_SET.getD (pick i) ""),
      f ∈ CHAR_SET := by
    intro f hfm
    obtain ⟨i, _, rfl⟩ := List.mem_map.1 hfm
    rw [List.getD_eq_getElem CHAR_SET "" (hp i)]
    exact List.getElem_mem _
  have hdata : (randomString len pick).data
      = (((List.range len).map fun i => CHAR_SET.getD (pick i) "").map String.data).flatten :=
    concatAll_data _
  refine ⟨?_, ⟨_, by simpa using h1, by simpa using h2, hmem, rfl⟩, ?_⟩
  · intro hemp
    obtain ⟨k, rfl⟩ : ∃ k, len = k + 1 := ⟨len - 1, by omega⟩
    have hnil : (randomString (k + 1) pick).data = [] := by rw [hemp]
    rw [hdata, List.range_succ_eq_map] at hnil
    simp only [List.map_cons, List.flatten_cons, List.append_eq_nil] at hnil
    exact char_set_entries_nonempty _
      (by rw [List.getD_eq_getElem CHAR_SET "" (hp 0)]; exact List.getElem_mem _) hnil.1
  · intro c hc
    rw [hdata, List.mem_flatten] at hc
    obtain ⟨dl, hdl, hcdl⟩ := hc
    obtain ⟨f, hfm, rfl⟩ := List.mem_map.1 hdl
    exact ⟨f, hmem f hfm, hcdl⟩

theorem C8_random_string_props_witness :
    randomString 1 (fun _ => 1) ≠ "" ∧
    (∃ frags : List String, 1 ≤ frags.length ∧ frags.length ≤ 16 ∧
      (∀ f ∈ frags, f ∈ CHAR_SET) ∧ randomString 1 (fun _ => 1) = concatAll frags) ∧
    (∀ c ∈ (randomString 1 (fun _ => 1)).data, ∃ s ∈ CHAR_SET, c ∈ s.data) :=
  C8_random_string_props 1 (fun _ => 1) (by decide) (by decide)
    (fun _ => show (1 : Nat) < CHAR_SET.length by decide)

theorem C9_update_preserves_invariant_witness :
    1 ≤ (Stream.update 80 ⟨5, 5, .down⟩ false .up).x ∧
      (Stream.update 80 ⟨5, 5, .down⟩ false .up).x ≤ 80 - 2 ∧
      1 ≤ (Stream.update 80 ⟨5, 5, .down⟩ false .up).y :=
  C9_update_preserves_invariant 80 5 5 .down false .up
    (by decide) (by decide) (by decide) (by decide) (by decide)

/-- C10 counterexample: at `max_x = 32768` — outside the claimed exactness
range `2 ≤ max_x ≤ 32767` — the cast wrap and the i16 subtraction wrap cancel
(`wrap16 (wrap16 32768 - 2) = 32766 = max_x - 2`), so `Stream::update` agrees
with the unbounded-integer semantics for every direction and draw outcome at
the state `(5, 5)`, refuting the "precisely when" of the claim. -/
theorem C10_exact_at_32768 :
    ((allDirections.all fun d => allDirections.all fun nd => [true, false].all fun bern =>
        Stream.update 32768 ⟨5, 5, d⟩ bern nd
          == Stream.updateSpecRule 32768 ⟨5, 5, d⟩ bern nd) = true) ∧
    ¬(32768 : Nat) ≤ 32767 := by decide

/-- C10 (amended): the arithmetic inside `Stream::update` agrees with the
unbounded-integer semantics whenever `2 ≤ max_x ≤ 32768` and `x, y ≤ 32766`
(the bound extends to `32768`, where the two wraps cancel); it genuinely
diverges at `max_x = 32769` (the clamp comparison wraps to `-32768` and always
fires) and at `max_x = 1` (the `u16` clamp expression `max_x - 2`
underflows to `65535`). -/
theorem C10_wrapfree_agreement (maxX x y : Nat) (d : Direction) (bern : Bool)
    (nd : Direction) (h2 : 2 ≤ maxX) (hm : maxX ≤ 32768)
    (hx : x ≤ 32766) (hy : y ≤ 32766) :
    Stream.update maxX ⟨x, y, d⟩ bern nd = Stream.updateSpecRule maxX ⟨x, y, d⟩ bern nd ∧
    Stream.update 32769 ⟨5, 5, .right⟩ true .left
      ≠ Stream.updateSpecRule 32769 ⟨5, 5, .right⟩ true .left ∧
    Stream.update 1 ⟨5, 5, .right⟩ false .left
      ≠ Stream.updateSpecRule 1 ⟨5, 5, .right⟩ false .left :=
  ⟨update_agrees_spec maxX x y d bern nd h2 hm hx hy, by decide, by decide⟩

theorem C10_wrapfree_agreement_witness :
    (Stream.update 32768 ⟨5, 5, .right⟩ true .left
        = Stream.updateSpecRule 32768 ⟨5, 5, .right⟩ true .left) ∧
    Stream.update 32769 ⟨5, 5, .right⟩ true .left
      ≠ Stream.updateSpecRule 32769 ⟨5, 5, .right⟩ true .left ∧
    Stream.update 1 ⟨5, 5, .right⟩ false .left
      ≠ Stream.updateSpecRule 1 ⟨5, 5, .right⟩ false .left :=
  C10_wrapfree_agreement 32768 5 5 .right true .left
    (by decide) (by decide) (by decide) (by decide)

end Rain
